import Mathlib

/-!
Shallow embedding of the normalization and partitioned-storage core of the
FreeQuantDatabase repository (src/processors/cleaner.py and
src/storage/parquet_manager.py), together with theorems settling the frozen
claims about it.

Modelling conventions:
* pandas scalar cells are modelled by `Cell`: a raw string, an exact numeric
  value (Python floats are modelled as exact rationals `ℚ`, Python ints as
  `ℤ`), a calendar date, or the missing marker `Cell.na` (NaN / None / NaT).
* A pandas `DataFrame` is a list of column names plus a list of rows, where a
  row is an association list from column name to cell (`DataFrame.WF` states
  the pandas invariant that every row carries exactly the frame's columns, in
  column order).
* `pd.to_datetime` applied to strings is modelled by the two date formats the
  spec designates as accepted (`YYYYMMDD` and `YYYY-MM-DD`); other string
  shapes, and numeric epoch interpretations, are treated as unparseable.
* Python `float(...)` is modelled by `parseFloat` over exact rationals
  (sign, integer/fraction digits, optional exponent); `"inf"`/`"nan"`
  literals are treated as parse failures.
-/

/-- Calendar date (year, month, day) as produced by `.dt.date`. -/
structure Date where
  year : ℕ
  month : ℕ
  day : ℕ
deriving DecidableEq, Repr

/-- A pandas scalar cell. -/
inductive Cell where
  | str (s : String)
  | num (q : ℚ)
  | int (n : ℤ)
  | date (d : Date)
  | na
deriving DecidableEq, Repr

/-- A dataframe row: association list from column name to cell. -/
abbrev Row := List (String × Cell)

/-- A pandas DataFrame: column names plus rows. -/
structure DataFrame where
  cols : List String
  rows : List Row
deriving DecidableEq, Repr

/-- `df.empty` in pandas: any axis has length 0. -/
def DataFrame.isEmpty (df : DataFrame) : Bool :=
  df.rows.isEmpty || df.cols.isEmpty

/-- Well-formedness: every row carries exactly the frame's columns in order. -/
def DataFrame.WF (df : DataFrame) : Prop :=
  ∀ r ∈ df.rows, r.map Prod.fst = df.cols

instance (df : DataFrame) : Decidable df.WF := by
  unfold DataFrame.WF; infer_instance

/-- `row[c]`: the first entry with the given column name. -/
def getCell (r : Row) (c : String) : Option Cell :=
  (r.find? (fun p => p.1 == c)).map (·.2)

/-- `df[c] = v` at row level: replace the entry if the key is present
(pandas replaces the whole column), otherwise append a new entry. -/
def setEntry (r : Row) (c : String) (v : Cell) : Row :=
  if r.any (fun p => p.1 == c) then
    r.map (fun p => if p.1 = c then (c, v) else p)
  else r ++ [(c, v)]

/-- `df.drop(columns=[c])` (removes every column with that name). -/
def dropCol (df : DataFrame) (c : String) : DataFrame :=
  ⟨df.cols.filter (fun x => x != c),
   df.rows.map (fun r => r.filter (fun p => p.1 != c))⟩

/-- `df[c] = v` with a constant scalar `v`. -/
def setColConst (df : DataFrame) (c : String) (v : Cell) : DataFrame :=
  ⟨if c ∈ df.cols then df.cols else df.cols ++ [c],
   df.rows.map (fun r => setEntry r c v)⟩

/-! ## Python `float(...)` over exact rationals -/

/-- Python `str.strip()` on a character list: drop surrounding whitespace. -/
def trimChars (l : List Char) : List Char :=
  ((l.dropWhile Char.isWhitespace).reverse.dropWhile Char.isWhitespace).reverse

/-- Numeric value of a digit string (most significant first). -/
def digitsVal (l : List Char) : ℕ :=
  l.foldl (fun a c => a * 10 + (c.toNat - 48)) 0

/-- Exponent part of a float literal: optional sign then digits. -/
def parseExp (cs : List Char) : Option ℤ :=
  match cs with
  | '+' :: r => if r ≠ [] ∧ r.all Char.isDigit then some ((digitsVal r : ℤ)) else none
  | '-' :: r => if r ≠ [] ∧ r.all Char.isDigit then some (-(digitsVal r : ℤ)) else none
  | r => if r ≠ [] ∧ r.all Char.isDigit then some ((digitsVal r : ℤ)) else none

/-- Mantissa of a float literal: digits, optionally a point and more digits.
Returns all mantissa digits, the fractional-digit count, and the remainder.
The denoted value is `digits / 10 ^ fracLen`. Rational values are assembled
with `mkRat` (rather than field operations) so that they evaluate by
kernel reduction. -/
def parseMantissa (cs : List Char) : Option ((ℕ × ℕ) × List Char) :=
  let ip := cs.takeWhile Char.isDigit
  let r1 := cs.dropWhile Char.isDigit
  match r1 with
  | '.' :: r2 =>
    let fp := r2.takeWhile Char.isDigit
    let r3 := r2.dropWhile Char.isDigit
    if ip.isEmpty && fp.isEmpty then none
    else some ((digitsVal (ip ++ fp), fp.length), r3)
  | _ => if ip.isEmpty then none else some ((digitsVal ip, 0), r1)

/-- Value `n / 10 ^ fracLen * 10 ^ e` as an exact rational. -/
def scaledVal (n : ℕ) (fracLen : ℕ) (e : ℤ) : ℚ :=
  if (fracLen : ℤ) ≤ e then mkRat (n * 10 ^ (e - fracLen).toNat) 1
  else mkRat n (10 ^ ((fracLen : ℤ) - e).toNat)

/-- Unsigned float literal: mantissa with optional `e`/`E` exponent. -/
def parseUnsignedFloat (cs : List Char) : Option ℚ := do
  let ((n, fl), rest) ← parseMantissa cs
  match rest with
  | [] => some (scaledVal n fl 0)
  | 'e' :: r => (parseExp r).map (scaledVal n fl)
  | 'E' :: r => (parseExp r).map (scaledVal n fl)
  | _ => none

/-- Negation assembled with `mkRat` (kernel-reducible). -/
def ratNeg (q : ℚ) : ℚ := mkRat (-q.num) q.den

/-- Division by a natural constant, assembled with `mkRat`. -/
def ratDivNat (q : ℚ) (k : ℕ) : ℚ := mkRat q.num (q.den * k)

/-- Multiplication by a natural constant, assembled with `mkRat`. -/
def ratMulNat (q : ℚ) (k : ℕ) : ℚ := mkRat (q.num * k) q.den

theorem ratNeg_eq (q : ℚ) : ratNeg q = -q := by
  unfold ratNeg
  rw [Rat.mkRat_eq_div]
  push_cast
  rw [neg_div, Rat.num_div_den]

theorem ratDivNat_eq (q : ℚ) (k : ℕ) : ratDivNat q k = q / k := by
  unfold ratDivNat
  rw [Rat.mkRat_eq_div]
  push_cast
  rw [div_mul_eq_div_div, Rat.num_div_den]

theorem ratMulNat_eq (q : ℚ) (k : ℕ) : ratMulNat q k = q * k := by
  unfold ratMulNat
  rw [Rat.mkRat_eq_div]
  push_cast
  rw [mul_comm (q.num : ℚ) (k : ℚ), mul_div_assoc, Rat.num_div_den, mul_comm]

/-- Python `float(s)`: surrounding whitespace tolerated, optional sign. -/
def parseFloat (s : String) : Option ℚ :=
  match trimChars s.toList with
  | '+' :: r => parseUnsignedFloat r
  | '-' :: r => (parseUnsignedFloat r).map ratNeg
  | r => parseUnsignedFloat r

/-! ## Dates -/

/-- Basic calendar-field validation used by the date parser. -/
def mkDate (y m d : ℕ) : Option Date :=
  if 1 ≤ m ∧ m ≤ 12 ∧ 1 ≤ d ∧ d ≤ 31 then some ⟨y, m, d⟩ else none

/-- `pd.to_datetime` on a string, restricted to the spec's accepted formats:
compact `YYYYMMDD` and ISO `YYYY-MM-DD`. Other shapes fail. -/
def parseDateString (s : String) : Option Date :=
  match trimChars s.toList with
  | [a, b, c, d, e, f, g, h] =>
    if [a, b, c, d, e, f, g, h].all Char.isDigit then
      mkDate (digitsVal [a, b, c, d]) (digitsVal [e, f]) (digitsVal [g, h])
    else none
  | [a, b, c, d, '-', e, f, '-', g, h] =>
    if [a, b, c, d, e, f, g, h].all Char.isDigit then
      mkDate (digitsVal [a, b, c, d]) (digitsVal [e, f]) (digitsVal [g, h])
    else none
  | _ => none

/-- `pd.to_datetime(..., errors='coerce').dt.date` on a single cell: dates
pass through, strings are parsed under the accepted formats, everything else
coerces to the missing marker. -/
def parseDateCell (c : Cell) : Option Date :=
  match c with
  | .date d => some d
  | .str s => parseDateString s
  | _ => none

/-- Zero-padded two-digit rendering. -/
def pad2 (n : ℕ) : String :=
  if n < 10 then "0" ++ toString n else toString n

/-- Python `str(...)` on a cell (exact for strings, which is the only case
the claims exercise; numeric and date renderings are best-effort). -/
def cellToString : Cell → String
  | .str s => s
  | .num q => toString q
  | .int n => toString n
  | .date d => toString d.year ++ "-" ++ pad2 d.month ++ "-" ++ pad2 d.day
  | .na => "nan"

/-- Python truthiness of a cell (`if stock_code:`): empty string and zero are
falsy; NaN and dates are truthy. -/
def Cell.truthy : Cell → Bool
  | .str s => s ≠ ""
  | .num q => q ≠ 0
  | .int n => n ≠ 0
  | .date _ => true
  | .na => true

/-! ## Value Normalizer (`clean_dividend_data`'s inner `clean_pct` /
`clean_amount`, cleaner.py lines 247-269) -/

/-- Remove every occurrence of a character (Python `s.replace(ch, "")`). -/
def removeChar (s : String) (ch : Char) : String :=
  String.mk (s.toList.filter (fun c => c != ch))

/-- Python `ch in s` for a single-character needle. -/
def containsChar (s : String) (ch : Char) : Bool :=
  s.toList.contains ch

/-- Body of `clean_pct` on the stripped string `s = str(val).strip()`. -/
def pctOf (s : String) : Cell :=
  if containsChar s '%' then
    match parseFloat (removeChar s '%') with
    | some q => .num (ratDivNat q 100)
    | none => .na
  else .na

/-- `clean_pct` (cleaner.py 247-255): NaN for missing; if the trimmed string
contains `%`, strip it, parse as float and divide by 100; otherwise NaN. -/
def cleanPct (val : Cell) : Cell :=
  match val with
  | .na => .na
  | v => pctOf (String.mk (trimChars (cellToString v).toList))

/-- Body of `clean_amount` on the stripped string `s = str(val).strip()`. -/
def amountOf (s : String) : Cell :=
  if containsChar s '亿' then
    match parseFloat (removeChar s '亿') with
    | some q => .num (ratMulNat q 100000000)
    | none => .na
  else if containsChar s '万' then
    match parseFloat (removeChar s '万') with
    | some q => .num (ratMulNat q 10000)
    | none => .na
  else .na

/-- `clean_amount` (cleaner.py 257-269): NaN for missing; `亿` suffix strips
and multiplies by 1e8, else `万` strips and multiplies by 1e4; otherwise NaN. -/
def cleanAmount (val : Cell) : Cell :=
  match val with
  | .na => .na
  | v => amountOf (String.mk (trimChars (cellToString v).toList))

example : cleanPct (.str "2.53%") = .num (mkRat 253 10000) := by decide
example : cleanAmount (.str "6.29亿") = .num (mkRat 629000000 1) := by decide
example : cleanAmount (.str "1.2万") = .num (mkRat 12000 1) := by decide
example : cleanPct (.str "--") = .na := by decide
example : cleanAmount (.str "--") = .na := by decide
example : cleanPct (.str "123") = .na := by decide
example : cleanAmount (.str "123") = .na := by decide
example : parseFloat "1.5e2" = some (mkRat 150 1) := by decide
example : parseFloat "-2.5" = some (mkRat (-5) 2) := by decide
example : parseDateString "20250930" = some ⟨2025, 9, 30⟩ := by decide
example : parseDateString "2025-06-30" = some ⟨2025, 6, 30⟩ := by decide
example : parseDateString "hello" = none := by decide

/-! ## `DataCleaner.normalize_date` (cleaner.py 22-31) -/

instance {ε α : Type} [DecidableEq ε] [DecidableEq α] : DecidableEq (Except ε α) :=
  fun x y =>
    match x, y with
    | .ok a, .ok b =>
      if h : a = b then isTrue (by rw [h]) else isFalse (fun hh => h (Except.ok.inj hh))
    | .error e, .error f =>
      if h : e = f then isTrue (by rw [h]) else isFalse (fun hh => h (Except.error.inj hh))
    | .ok _, .error _ => isFalse (fun hh => Except.noConfusion hh)
    | .error _, .ok _ => isFalse (fun hh => Except.noConfusion hh)

/-- Is the cell a non-missing date? (what survives `dropna` after the
date coercion). -/
def isDateCell : Cell → Bool
  | .date _ => true
  | _ => false

/-- The per-row effect of the date coercion: overwrite the column with the
parsed date, or with the missing marker when parsing fails. -/
def dateFix (col : String) (r : Row) : Row :=
  setEntry r col
    (match parseDateCell ((getCell r col).getD Cell.na) with
     | some d => Cell.date d
     | none => Cell.na)

/-- The `dropna(subset=[col])` row predicate after the coercion. -/
def keepDated (col : String) (r : Row) : Bool :=
  isDateCell ((getCell r col).getD Cell.na)

/-- `normalize_date(df, date_col)`: return the frame unchanged when it is
empty or lacks the column; otherwise coerce the column with
`pd.to_datetime(..., errors='coerce').dt.date` and drop rows whose value
failed to parse. -/
def normalizeDate (df : DataFrame) (dateCol : String) : DataFrame :=
  if df.isEmpty || !(df.cols.contains dateCol) then df
  else ⟨df.cols, (df.rows.map (dateFix dateCol)).filter (keepDated dateCol)⟩

/-! ## `DataCleaner.clean_financial_report` (cleaner.py 51-122) -/

/-- `drop_duplicates(subset=['unique_key'])` over keyed rows: keep the first
occurrence of each key. -/
def dedupByKey : List (Cell × Row) → List (Cell × Row)
  | [] => []
  | x :: xs => x :: (dedupByKey xs).filter (fun y => y.1 != x.1)

/-- The metric-keyed rows of the wide table after
`df['unique_key'] = df['指标']; df.drop_duplicates(subset=['unique_key'])`:
each row keyed by its `指标` cell, first occurrence per key kept. -/
def uniqueMetricRows (rows : List Row) : List (Cell × Row) :=
  dedupByKey (rows.map (fun r => ((getCell r "指标").getD Cell.na, r)))

/-- `pd.to_numeric(..., errors='coerce')` on one cell: numbers pass through,
strings get a float parse, everything else coerces to NaN. -/
def toNumericCell : Cell → Cell
  | .num q => .num q
  | .int n => .int n
  | .str s => match parseFloat s with
              | some q => .num q
              | none => .na
  | .date _ => .na
  | .na => .na

/-- Step 7 of the transpose: coerce every column except `report_date` and
`code` to numeric. -/
def mapNonKeyNumeric (df : DataFrame) : DataFrame :=
  ⟨df.cols,
   df.rows.map (fun r => r.map (fun p =>
     if p.1 = "report_date" ∨ p.1 = "code" then p else (p.1, toNumericCell p.2)))⟩

/-- `df['code'].iloc[0]` when the column is present. -/
def extractStockCode (df : DataFrame) : Option Cell :=
  if "code" ∈ df.cols then some ((getCell (df.rows.headD []) "code").getD Cell.na)
  else none

/-- The column labels remaining once `选项` and `指标` are dropped — the
period labels plus any stray columns. -/
def periodLabels (df1 : DataFrame) : List String :=
  df1.cols.filter (fun c => !(c == "选项" || c == "指标"))

/-- The transposed rows: one per remaining column label that parses as a
date (stray labels are dropped, not null-filled). -/
def transRows (df1 : DataFrame) : List Row :=
  (periodLabels df1).filterMap (fun L =>
    (parseDateString L).map (fun d =>
      ("report_date", Cell.date d) :: (uniqueMetricRows df1.rows).map
        (fun kr => (cellToString kr.1, (getCell kr.2 L).getD Cell.na))))

/-- The transposed frame before the code column is re-attached. -/
def transDF (df1 : DataFrame) : DataFrame :=
  ⟨"report_date" :: (uniqueMetricRows df1.rows).map (fun kr => cellToString kr.1),
   transRows df1⟩

/-- Steps 3-7 of the transpose, run after the dedup guards pass: transpose,
re-attach the code (when truthy), coerce non-key columns to numeric. -/
def cfrTranspose (stockCode : Option Cell) (df1 : DataFrame) : DataFrame :=
  mapNonKeyNumeric (match stockCode with
    | some c => if c.truthy then setColConst (transDF df1) "code" c else transDF df1
    | none => transDF df1)

/-- The branch on the grouping column `选项`; touching the missing metric
column `指标` raises a `KeyError`. -/
def cfrAfterCode (stockCode : Option Cell) (df1 : DataFrame) : Except String DataFrame :=
  if "选项" ∈ df1.cols then
    if "指标" ∈ df1.cols then .ok (cfrTranspose stockCode df1)
    else .error "KeyError: 指标"
  else .ok ⟨[], []⟩

/-- `DataCleaner.clean_financial_report`: transpose a wide
`metric × period` report into a long `period × metric` table.
Steps follow cleaner.py 51-122: empty frames are returned as they are; the
`code` column is removed with its first value retained; rows are
deduplicated on the `指标` (metric-name) cell keeping the first occurrence;
the frame is transposed so period-label columns become rows; row labels are
parsed as dates and failures dropped; the code is re-attached when truthy;
finally all non-key columns are coerced to numeric. Accessing the missing
`指标` column (possible when `选项` is present but `指标` is not) raises a
`KeyError` in pandas, modelled by `Except.error`; a frame without `选项`
returns the fresh empty frame `pd.DataFrame()`. -/
def cleanFinancialReport (df : DataFrame) : Except String DataFrame :=
  if df.isEmpty then .ok df
  else
    cfrAfterCode (extractStockCode df)
      (if "code" ∈ df.cols then dropCol df "code" else df)

/-! ## `DataCleaner.merge_financial_data` (cleaner.py 152-182) -/

/-- `pd.to_datetime(col).dt.date` without `errors='coerce'` on one cell:
missing values pass through as NaT, dates pass through, strings must parse
(an unparseable string raises, modelled by `Except.error`). -/
def coerceDateStrict (c : Cell) : Except String Cell :=
  match c with
  | .na => .ok .na
  | .date d => .ok (.date d)
  | .str s => match parseDateString s with
              | some d => .ok (.date d)
              | none => .error "to_datetime: unparseable"
  | _ => .error "to_datetime: unsupported scalar"

/-- Effectful map over a list in the `Except` monad, written as the loop the
source performs (stops at the first raising element). -/
def mapME {α β : Type} (f : α → Except String β) : List α → Except String (List β)
  | [] => .ok []
  | x :: xs =>
    match f x with
    | .error e => .error e
    | .ok b =>
      match mapME f xs with
      | .error e => .error e
      | .ok bs => .ok (b :: bs)

/-- The in-place key coercion `merge_financial_data` performs on both inputs
before joining: `report_date` to dates (strict), `code` to strings. -/
def coerceKeys (df : DataFrame) : Except String DataFrame :=
  match (if "report_date" ∈ df.cols then
           mapME (fun r => (coerceDateStrict ((getCell r "report_date").getD Cell.na)).map
             (fun c => setEntry r "report_date" c)) df.rows
         else .ok df.rows) with
  | .error e => .error e
  | .ok rows1 =>
    .ok ⟨df.cols,
      if "code" ∈ df.cols then
        rows1.map (fun r =>
          setEntry r "code" (.str (cellToString ((getCell r "code").getD Cell.na))))
      else rows1⟩

/-- The (code, report_date) key of a row. -/
def rowKey (r : Row) : Cell × Cell :=
  ((getCell r "code").getD Cell.na, (getCell r "report_date").getD Cell.na)

/-- The secondary table's non-key columns after suffix resolution: a column
colliding with a primary column gets `_bs`, the primary is never renamed. -/
def renCols (ak bs : DataFrame) : List String :=
  (bs.cols.filter (fun c => !(c == "code" || c == "report_date"))).map
    (fun c => if c ∈ ak.cols then c ++ "_bs" else c)

/-- The joined rows produced for one primary row: one row per matching
secondary row, or a single NaN-filled row when none matches. -/
def joinRowsFor (ak bs : DataFrame) (r : Row) : List Row :=
  if (bs.rows.filter (fun b => rowKey b == rowKey r)).isEmpty then
    [r ++ (renCols ak bs).map (fun c => (c, Cell.na))]
  else
    (bs.rows.filter (fun b => rowKey b == rowKey r)).map (fun b =>
      r ++ ((bs.cols.filter (fun c => !(c == "code" || c == "report_date"))).zip
        (renCols ak bs)).map (fun cc => (cc.2, (getCell b cc.1).getD Cell.na)))

/-- `pd.merge(ak, bs, on=['code','report_date'], how='left',
suffixes=('', '_bs'))`: left outer join; the secondary table's non-key
columns that collide with a primary column get the `_bs` suffix, the
primary's columns are never renamed. -/
def leftJoin (ak bs : DataFrame) : DataFrame :=
  ⟨ak.cols ++ renCols ak bs, ak.rows.flatMap (joinRowsFor ak bs)⟩

/-- `DataCleaner.merge_financial_data`: empty-input short circuits, then
in-place key coercion of both frames, then the left join; a missing key
column makes `pd.merge` raise a `KeyError`, caught by the `except` which
returns the (coerced) primary frame. -/
def mergeFinancialData (dfAk dfBs : DataFrame) : Except String DataFrame :=
  if dfAk.isEmpty then .ok dfBs
  else if dfBs.isEmpty then .ok dfAk
  else
    match coerceKeys dfAk with
    | .error e => .error e
    | .ok ak =>
      match coerceKeys dfBs with
      | .error e => .error e
      | .ok bs =>
        if "code" ∈ ak.cols ∧ "report_date" ∈ ak.cols ∧
           "code" ∈ bs.cols ∧ "report_date" ∈ bs.cols then
          .ok (leftJoin ak bs)
        else .ok ak

example :
    cleanFinancialReport
      ⟨["选项", "指标", "20250630", "20250930", "code"],
       [[("选项", .str "常用指标"), ("指标", .str "净利润"),
         ("20250630", .str "1000"), ("20250930", .str "2000"),
         ("code", .str "sh.600000")]]⟩ =
    .ok ⟨["report_date", "净利润", "code"],
      [[("report_date", .date ⟨2025, 6, 30⟩), ("净利润", .num (mkRat 1000 1)),
        ("code", .str "sh.600000")],
       [("report_date", .date ⟨2025, 9, 30⟩), ("净利润", .num (mkRat 2000 1)),
        ("code", .str "sh.600000")]]⟩ := by decide

example :
    cleanFinancialReport ⟨["选项", "20250930"], [[("选项", .str "常用指标"), ("20250930", .str "1000")]]⟩ =
    .error "KeyError: 指标" := by decide

example :
    normalizeDate ⟨["date", "v"], [[("date", .str "2024-01-02"), ("v", .int 1)],
      [("date", .str "oops"), ("v", .int 2)]]⟩ "date" =
    ⟨["date", "v"], [[("date", .date ⟨2024, 1, 2⟩), ("v", .int 1)]]⟩ := by decide

/-! ## `ParquetStorage.save_partitioned` (parquet_manager.py 36-92) -/

/-- A destination path `base_dir/<category>/year=<year>/<file>` (the constant
`base_dir` prefix is left implicit). -/
structure PPath where
  category : String
  year : ℕ
  file : String
deriving DecidableEq, Repr

/-- The file system: an association list from path to the written frame. -/
abbrev FS := List (PPath × DataFrame)

/-- Writing a file: `pq.write_table` fully replaces any existing file at the
same path. -/
def fsInsert (w : PPath × DataFrame) (fs : FS) : FS :=
  w :: fs.filter (fun e => e.1 != w.1)

/-- The frame stored at a path, if any. -/
def fsLookup (fs : FS) (p : PPath) : Option DataFrame :=
  (fs.find? (fun e => e.1 == p)).map (·.2)

/-- Paths of a file system. -/
def fsPaths (fs : FS) : List PPath := fs.map (·.1)

/-- Perform a sequence of writes in order. -/
def applyWrites (fs : FS) (ws : List (PPath × DataFrame)) : FS :=
  ws.foldl (fun acc w => fsInsert w acc) fs

/-- Sanitize the storage key into a file name:
`key.replace("/", "_").replace("\\", "_")`. -/
def sanitize (s : String) : String :=
  String.mk (s.toList.map (fun ch => if ch = '/' ∨ ch = '\\' then '_' else ch))

/-- The partition year of a row: `pd.to_datetime(df[partition_col],
errors='coerce').dt.year` (rows that fail to parse are dropped later). -/
def rowYear (r : Row) (pc : String) : Option ℕ :=
  (parseDateCell ((getCell r pc).getD Cell.na)).map (·.year)

/-- Insertion into a sorted list of years. -/
def insertSorted (n : ℕ) : List ℕ → List ℕ
  | [] => [n]
  | m :: ms => if n ≤ m then n :: m :: ms else m :: insertSorted n ms

/-- Ascending sort (`df.groupby` emits groups with sorted keys). -/
def sortNats (l : List ℕ) : List ℕ := l.foldr insertSorted []

/-- Keep the first occurrence of each element. -/
def dedupNats : List ℕ → List ℕ
  | [] => []
  | x :: xs => x :: (dedupNats xs).filter (fun y => y != x)

/-- The year-augmented rows `save_partitioned` works on: for each input row
whose partition cell parses, the copy of the row with the `year` column set
to the partition year (`df['year'] = temp_date.dt.year` after `df.copy()`,
then `dropna(subset=['year'])`). -/
def yearRows (df : DataFrame) (pc : String) : List (Row × ℕ) :=
  df.rows.filterMap (fun r =>
    (rowYear r pc).map (fun y => (setEntry r "year" (Cell.int (Int.ofNat y)), y)))

/-- The columns of the year-augmented frame. -/
def yearCols (df : DataFrame) : List String :=
  if "year" ∈ df.cols then df.cols else df.cols ++ ["year"]

/-- The list of (path, frame) writes one `save_partitioned` call performs:
empty frames and frames missing the partition or key column produce no
writes (the call logs and returns); otherwise one write per distinct
partition year, the group named after the key cell of its first row. -/
def partitionWrites (df : DataFrame) (category pc kc : String) :
    List (PPath × DataFrame) :=
  if df.isEmpty || !(df.cols.contains pc) || !(df.cols.contains kc) then []
  else
    let work := yearRows df pc
    let years := sortNats (dedupNats (work.map (·.2)))
    years.map (fun y =>
      let grp := (work.filter (fun wr => wr.2 == y)).map (·.1)
      let keyStr := cellToString ((getCell (grp.headD []) kc).getD Cell.na)
      (⟨category, y, sanitize keyStr ++ ".parquet"⟩, ⟨yearCols df, grp⟩))

/-- `ParquetStorage.save_partitioned`: applies the writes to the file
system. The second component is the caller-visible input frame: the code
copies the frame (`df = df.copy()`, parquet_manager.py line 61) before
adding the `year` column, so the caller's frame is returned unchanged. -/
def savePartitioned (fs : FS) (df : DataFrame) (category pc kc : String) :
    FS × DataFrame :=
  (applyWrites fs (partitionWrites df category pc kc), df)

example :
    partitionWrites
      ⟨["date", "close", "code"],
       [[("date", .str "2024-12-15"), ("close", .num 1), ("code", .str "sh.600000")],
        [("date", .str "2025-01-05"), ("close", .num 2), ("code", .str "sh.600000")]]⟩
      "stock_price_daily" "date" "code" =
    [(⟨"stock_price_daily", 2024, "sh.600000.parquet"⟩,
      ⟨["date", "close", "code", "year"],
       [[("date", .str "2024-12-15"), ("close", .num 1), ("code", .str "sh.600000"),
         ("year", .int 2024)]]⟩),
     (⟨"stock_price_daily", 2025, "sh.600000.parquet"⟩,
      ⟨["date", "close", "code", "year"],
       [[("date", .str "2025-01-05"), ("close", .num 2), ("code", .str "sh.600000"),
         ("year", .int 2025)]]⟩)] := by decide

example : sanitize "a/b\\c" = "a_b_c" := by decide

/-! ## Claim C5: Value Normalizer rules 1-4 -/

theorem cleanPct_of_pct (s : String) (q : ℚ)
    (h1 : containsChar (String.mk (trimChars s.toList)) '%' = true)
    (h2 : parseFloat (removeChar (String.mk (trimChars s.toList)) '%') = some q) :
    cleanPct (Cell.str s) = Cell.num (q / 100) := by
  simp only [cleanPct, pctOf, cellToString, h1, h2, if_true, ratDivNat_eq]
  norm_num

theorem cleanAmount_of_yi (s : String) (q : ℚ)
    (h1 : containsChar (String.mk (trimChars s.toList)) '亿' = true)
    (h2 : parseFloat (removeChar (String.mk (trimChars s.toList)) '亿') = some q) :
    cleanAmount (Cell.str s) = Cell.num (q * 100000000) := by
  simp only [cleanAmount, amountOf, cellToString, h1, h2, if_true, ratMulNat_eq]
  norm_num

theorem cleanAmount_of_wan (s : String) (q : ℚ)
    (h0 : containsChar (String.mk (trimChars s.toList)) '亿' = false)
    (h1 : containsChar (String.mk (trimChars s.toList)) '万' = true)
    (h2 : parseFloat (removeChar (String.mk (trimChars s.toList)) '万') = some q) :
    cleanAmount (Cell.str s) = Cell.num (q * 10000) := by
  simp only [cleanAmount, amountOf, cellToString, h0, h1, h2, if_true, if_false,
    Bool.false_eq_true, ratMulNat_eq]
  norm_num

theorem pctOf_shape (s : String) : pctOf s = Cell.na ∨ ∃ q, pctOf s = Cell.num q := by
  unfold pctOf
  split
  · split
    · exact Or.inr ⟨_, rfl⟩
    · exact Or.inl rfl
  · exact Or.inl rfl

theorem amountOf_shape (s : String) :
    amountOf s = Cell.na ∨ ∃ q, amountOf s = Cell.num q := by
  unfold amountOf
  split
  · split
    · exact Or.inr ⟨_, rfl⟩
    · exact Or.inl rfl
  · split
    · split
      · exact Or.inr ⟨_, rfl⟩
      · exact Or.inl rfl
    · exact Or.inl rfl

/-- Every result of `clean_pct` is NaN or a number (it never raises). -/
theorem cleanPct_shape (c : Cell) :
    cleanPct c = Cell.na ∨ ∃ q, cleanPct c = Cell.num q := by
  cases c <;> first | exact Or.inl rfl | exact pctOf_shape _

/-- Every result of `clean_amount` is NaN or a number (it never raises). -/
theorem cleanAmount_shape (c : Cell) :
    cleanAmount c = Cell.na ∨ ∃ q, cleanAmount c = Cell.num q := by
  cases c <;> first | exact Or.inl rfl | exact amountOf_shape _

/-- Claim C5: the value normalizer maps a percentage string by stripping
`%`, parsing as float and dividing by 100; maps a magnitude-suffixed string
by stripping the suffix and multiplying by 1e8 (`亿`) or 1e4 (`万`); missing
sentinels yield NaN; in particular `"2.53%" ↦ 0.0253`, `"6.29亿" ↦ 6.29e8`,
`"1.2万" ↦ 1.2e4`, `"--" ↦ NaN`; and the cleaners never throw — every input
yields either NaN or a number. -/
theorem C5_normalizer_rules :
    (∀ s q, containsChar (String.mk (trimChars s.toList)) '%' = true →
       parseFloat (removeChar (String.mk (trimChars s.toList)) '%') = some q →
       cleanPct (Cell.str s) = Cell.num (q / 100))
  ∧ (∀ s q, containsChar (String.mk (trimChars s.toList)) '亿' = true →
       parseFloat (removeChar (String.mk (trimChars s.toList)) '亿') = some q →
       cleanAmount (Cell.str s) = Cell.num (q * 100000000))
  ∧ (∀ s q, containsChar (String.mk (trimChars s.toList)) '亿' = false →
       containsChar (String.mk (trimChars s.toList)) '万' = true →
       parseFloat (removeChar (String.mk (trimChars s.toList)) '万') = some q →
       cleanAmount (Cell.str s) = Cell.num (q * 10000))
  ∧ cleanPct (Cell.str "2.53%") = Cell.num (253 / 10000 : ℚ)
  ∧ cleanAmount (Cell.str "6.29亿") = Cell.num (629000000 : ℚ)
  ∧ cleanAmount (Cell.str "1.2万") = Cell.num (12000 : ℚ)
  ∧ cleanPct (Cell.str "--") = Cell.na
  ∧ cleanAmount (Cell.str "--") = Cell.na
  ∧ cleanPct Cell.na = Cell.na
  ∧ cleanAmount Cell.na = Cell.na
  ∧ (∀ c, cleanPct c = Cell.na ∨ ∃ q, cleanPct c = Cell.num q)
  ∧ (∀ c, cleanAmount c = Cell.na ∨ ∃ q, cleanAmount c = Cell.num q) := by
  refine ⟨cleanPct_of_pct, cleanAmount_of_yi, cleanAmount_of_wan, ?_, ?_, ?_,
    by decide, by decide, by decide, by decide, cleanPct_shape, cleanAmount_shape⟩
  · have h : cleanPct (Cell.str "2.53%") = Cell.num (mkRat 253 10000) := by decide
    rw [h]; norm_num [Rat.mkRat_eq_div]
  · have h : cleanAmount (Cell.str "6.29亿") = Cell.num (mkRat 629000000 1) := by decide
    rw [h]; norm_num [Rat.mkRat_eq_div]
  · have h : cleanAmount (Cell.str "1.2万") = Cell.num (mkRat 12000 1) := by decide
    rw [h]; norm_num [Rat.mkRat_eq_div]

theorem C5_normalizer_rules_witness :
    cleanPct (Cell.str "7.5%") = Cell.num (mkRat 15 2 / 100)
  ∧ cleanAmount (Cell.str "3亿") = Cell.num (mkRat 3 1 * 100000000)
  ∧ cleanAmount (Cell.str "2万") = Cell.num (mkRat 2 1 * 10000) :=
  ⟨C5_normalizer_rules.1 "7.5%" (mkRat 15 2) (by decide) (by decide),
   C5_normalizer_rules.2.1 "3亿" (mkRat 3 1) (by decide) (by decide),
   C5_normalizer_rules.2.2.1 "2万" (mkRat 2 1) (by decide) (by decide) (by decide)⟩

/-! ## Claim C2: the claimed direct-float-parse fallback does not exist -/

/-- Claim C2 counterexample: the plain numeric string `"123"` carries no
percent or magnitude suffix, yet both cell cleaners return NaN — not the
claimed parsed float `123.0`. -/
theorem C2_counterexample :
    cleanPct (Cell.str "123") = Cell.na
  ∧ cleanAmount (Cell.str "123") = Cell.na
  ∧ Cell.na ≠ Cell.num (123 : ℚ) := by
  refine ⟨by decide, by decide, ?_⟩
  intro h
  exact Cell.noConfusion h

/-- Claim C2 (amended): a raw cell that is not missing and carries no
percent or magnitude suffix normalizes to NaN — no direct float parse is
attempted by `clean_pct` / `clean_amount`. -/
theorem C2_no_float_fallback :
    (∀ s, containsChar (String.mk (trimChars s.toList)) '%' = false →
       cleanPct (Cell.str s) = Cell.na)
  ∧ (∀ s, containsChar (String.mk (trimChars s.toList)) '亿' = false →
       containsChar (String.mk (trimChars s.toList)) '万' = false →
       cleanAmount (Cell.str s) = Cell.na) := by
  constructor
  · intro s h1
    simp only [cleanPct, pctOf, cellToString, h1, Bool.false_eq_true, if_false]
  · intro s h1 h2
    simp only [cleanAmount, amountOf, cellToString, h1, h2, Bool.false_eq_true, if_false]

theorem C2_no_float_fallback_witness :
    cleanPct (Cell.str "123") = Cell.na ∧ cleanAmount (Cell.str "456.7") = Cell.na :=
  ⟨C2_no_float_fallback.1 "123" (by decide),
   C2_no_float_fallback.2 "456.7" (by decide) (by decide)⟩

/-! ## Claim C6: storage preconditions -/

/-- Claim C6: `save_partitioned` on an empty frame is a no-op, and on a
frame missing the partition column or key column it returns without raising
and without touching the file system or the caller's frame. -/
theorem C6_storage_preconditions (fs : FS) (df : DataFrame) (cat pc kc : String) :
    (df.isEmpty = true → savePartitioned fs df cat pc kc = (fs, df))
  ∧ (pc ∉ df.cols → savePartitioned fs df cat pc kc = (fs, df))
  ∧ (kc ∉ df.cols → savePartitioned fs df cat pc kc = (fs, df)) := by
  refine ⟨?_, ?_, ?_⟩ <;> intro h <;>
  · have hw : partitionWrites df cat pc kc = [] := by
      unfold partitionWrites
      simp [h]
    simp [savePartitioned, hw, applyWrites]

theorem C6_storage_preconditions_witness :
    savePartitioned [] ⟨["date"], []⟩ "cat" "date" "code" = ([], ⟨["date"], []⟩)
  ∧ savePartitioned [] ⟨["v"], [[("v", Cell.int 1)]]⟩ "cat" "date" "v" =
      ([], ⟨["v"], [[("v", Cell.int 1)]]⟩)
  ∧ savePartitioned [] ⟨["date"], [[("date", Cell.str "20240101")]]⟩ "cat" "date" "code" =
      ([], ⟨["date"], [[("date", Cell.str "20240101")]]⟩) :=
  ⟨(C6_storage_preconditions [] ⟨["date"], []⟩ "cat" "date" "code").1 (by decide),
   (C6_storage_preconditions [] ⟨["v"], [[("v", Cell.int 1)]]⟩ "cat" "date" "v").2.1
     (by decide),
   (C6_storage_preconditions [] ⟨["date"], [[("date", Cell.str "20240101")]]⟩
     "cat" "date" "code").2.2 (by decide)⟩

/-! ## Row-level lemmas about `setEntry` and `getCell` -/

theorem getCell_map_replace (r : Row) (c : String) (v : Cell)
    (h : r.any (fun p => p.1 == c) = true) :
    getCell (r.map (fun p => if p.1 = c then (c, v) else p)) c = some v := by
  induction r with
  | nil => simp at h
  | cons p rs ih =>
    by_cases hp : p.1 = c
    · show getCell ((if p.1 = c then (c, v) else p) :: rs.map _) c = some v
      rw [if_pos hp]
      unfold getCell
      rw [List.find?_cons_of_pos _ (by simp)]
      rfl
    · have h' : rs.any (fun p => p.1 == c) = true := by
        simp only [List.any_cons] at h
        rcases Bool.or_eq_true_iff.mp h with h1 | h1
        · exact absurd (by simpa using h1) hp
        · exact h1
      show getCell ((if p.1 = c then (c, v) else p) :: rs.map _) c = some v
      rw [if_neg hp]
      unfold getCell
      rw [List.find?_cons_of_neg _ (by simp [hp])]
      exact ih h'

theorem map_replace_of_not_any (r : Row) (c : String) (v : Cell)
    (h : r.any (fun p => p.1 == c) = false) :
    r.map (fun p => if p.1 = c then (c, v) else p) = r := by
  induction r with
  | nil => rfl
  | cons p rs ih =>
    simp only [List.any_cons, Bool.or_eq_false_iff] at h
    have hp : ¬ p.1 = c := by simpa using h.1
    simp [hp, ih h.2]

theorem getCell_append_single (r : Row) (c : String) (v : Cell)
    (h : r.any (fun p => p.1 == c) = false) :
    getCell (r ++ [(c, v)]) c = some v := by
  induction r with
  | nil =>
    unfold getCell
    rw [List.nil_append, List.find?_cons_of_pos _ (by simp)]
    rfl
  | cons p rs ih =>
    simp only [List.any_cons, Bool.or_eq_false_iff] at h
    have hp : ¬ p.1 = c := by simpa using h.1
    unfold getCell
    rw [List.cons_append, List.find?_cons_of_neg _ (by simp [hp])]
    exact ih h.2

theorem getCell_setEntry (r : Row) (c : String) (v : Cell) :
    getCell (setEntry r c v) c = some v := by
  unfold setEntry
  by_cases h : r.any (fun p => p.1 == c) = true
  · rw [if_pos h]
    exact getCell_map_replace r c v h
  · rw [if_neg h]
    exact getCell_append_single r c v (Bool.eq_false_iff.mpr h)

theorem any_map_replace (r : Row) (c : String) (v : Cell)
    (h : r.any (fun p => p.1 == c) = true) :
    (r.map (fun p => if p.1 = c then (c, v) else p)).any (fun p => p.1 == c) = true := by
  rcases List.any_eq_true.mp h with ⟨x, hx, hxc⟩
  refine List.any_eq_true.mpr ⟨(c, v), List.mem_map.mpr ⟨x, hx, ?_⟩, by simp⟩
  simp [show x.1 = c by simpa using hxc]

theorem setEntry_setEntry_same (r : Row) (c : String) (v : Cell) :
    setEntry (setEntry r c v) c v = setEntry r c v := by
  by_cases h : r.any (fun p => p.1 == c) = true
  · have h1 : setEntry r c v = r.map (fun p => if p.1 = c then (c, v) else p) := by
      unfold setEntry; rw [if_pos h]
    rw [h1]
    have h2 := any_map_replace r c v h
    unfold setEntry
    rw [if_pos h2, List.map_map]
    apply List.map_congr_left
    intro p _
    by_cases hp : p.1 = c <;> simp [hp]
  · have hf := Bool.eq_false_iff.mpr h
    have h1 : setEntry r c v = r ++ [(c, v)] := by
      unfold setEntry; rw [if_neg h]
    rw [h1]
    have h2 : (r ++ [(c, v)]).any (fun p => p.1 == c) = true := by
      simp [List.any_append]
    unfold setEntry
    rw [if_pos h2, List.map_append, map_replace_of_not_any r c v hf]
    simp

/-! ## Claim C9: `normalize_date` idempotence -/

theorem getCell_dateFix (col : String) (r : Row) :
    getCell (dateFix col r) col =
      some (match parseDateCell ((getCell r col).getD Cell.na) with
            | some d => Cell.date d
            | none => Cell.na) :=
  getCell_setEntry _ _ _

theorem keepDated_dateFix (col : String) (r : Row)
    (h : keepDated col (dateFix col r) = true) :
    ∃ d, dateFix col r = setEntry r col (Cell.date d) := by
  unfold keepDated at h
  rw [getCell_dateFix] at h
  rcases hm : (match parseDateCell ((getCell r col).getD Cell.na) with
               | some d => Cell.date d
               | none => Cell.na) with s | q | n | d | _ <;>
    rw [hm] at h <;> simp [isDateCell] at h
  exact ⟨d, by unfold dateFix; rw [hm]⟩

theorem dateFix_idem_on_kept (col : String) (r : Row)
    (h : keepDated col (dateFix col r) = true) :
    dateFix col (dateFix col r) = dateFix col r := by
  rcases keepDated_dateFix col r h with ⟨d, he⟩
  rw [he]
  unfold dateFix
  rw [getCell_setEntry]
  show setEntry (setEntry r col (Cell.date d)) col (Cell.date d) =
    setEntry r col (Cell.date d)
  exact setEntry_setEntry_same r col (Cell.date d)

/-- Claim C9: `normalize_date` is idempotent — applying it twice yields the
same table as applying it once — and (when it actually runs, i.e. the frame
is nonempty and has the column) every surviving row holds a parsed date in
the date column, unparseable rows having been dropped. -/
theorem C9_normalize_date_idempotent :
    (∀ df col, normalizeDate (normalizeDate df col) col = normalizeDate df col)
  ∧ (∀ df col, col ∈ df.cols → df.rows ≠ [] →
      ∀ r ∈ (normalizeDate df col).rows, ∃ d, getCell r col = some (Cell.date d)) := by
  constructor
  · intro df col
    by_cases hg : (df.isEmpty || !(df.cols.contains col)) = true
    · have h1 : normalizeDate df col = df := by rw [normalizeDate, if_pos hg]
      rw [h1, h1]
    · have hgf : (df.isEmpty || !(df.cols.contains col)) = false :=
        Bool.eq_false_iff.mpr hg
      rcases Bool.or_eq_false_iff.mp hgf with ⟨hemp, hcon⟩
      have hcol : df.cols.contains col = true := by
        cases hcc : df.cols.contains col
        · rw [hcc] at hcon; simp at hcon
        · rfl
      have hcolmem : col ∈ df.cols := by simpa using hcol
      have hcne : df.cols ≠ [] := List.ne_nil_of_mem hcolmem
      have h1 : normalizeDate df col =
          ⟨df.cols, (df.rows.map (dateFix col)).filter (keepDated col)⟩ := by
        rw [normalizeDate, if_neg hg]
      by_cases hrows : ((df.rows.map (dateFix col)).filter (keepDated col)) = []
      · have hie : (normalizeDate df col).isEmpty = true := by
          rw [h1]; simp [DataFrame.isEmpty, hrows]
        rw [normalizeDate, if_pos (by simp [hie])]
      · have hkey : ∀ r ∈ (df.rows.map (dateFix col)).filter (keepDated col),
            dateFix col r = r ∧ keepDated col r = true := by
          intro r hr
          rcases List.mem_filter.mp hr with ⟨hr1, hr2⟩
          rcases List.mem_map.mp hr1 with ⟨r₀, _, rfl⟩
          exact ⟨dateFix_idem_on_kept col r₀ hr2, hr2⟩
        have h2 : normalizeDate
            (⟨df.cols, (df.rows.map (dateFix col)).filter (keepDated col)⟩ : DataFrame) col =
            ⟨df.cols, ((((df.rows.map (dateFix col)).filter (keepDated col)).map
              (dateFix col)).filter (keepDated col))⟩ := by
          rw [normalizeDate, if_neg]
          simp [DataFrame.isEmpty, List.isEmpty_iff, hrows, hcolmem, hcne]
        rw [h1, h2]
        congr 1
        have hmap : (((df.rows.map (dateFix col)).filter (keepDated col)).map
            (dateFix col)) = ((df.rows.map (dateFix col)).filter (keepDated col)) := by
          rw [List.map_congr_left (fun r hr => (hkey r hr).1)]
          simp
        rw [hmap]
        exact List.filter_eq_self.mpr (fun r hr => (hkey r hr).2)
  · intro df col hcolmem hrne r hr
    have hcol : df.cols.contains col = true := by simpa using hcolmem
    have hie : df.isEmpty = false := by
      simp [DataFrame.isEmpty, List.isEmpty_iff, hrne, List.ne_nil_of_mem hcolmem]
    have hg : (df.isEmpty || !(df.cols.contains col)) = false := by
      rw [hie, hcol]
      rfl
    have h1 : normalizeDate df col =
        ⟨df.cols, (df.rows.map (dateFix col)).filter (keepDated col)⟩ := by
      rw [normalizeDate, if_neg (ne_true_of_eq_false hg)]
    rw [h1] at hr
    rcases List.mem_filter.mp hr with ⟨_, hr2⟩
    unfold keepDated at hr2
    rcases hq : getCell r col with _ | w
    · rw [hq] at hr2; simp [isDateCell] at hr2
    · cases w <;> rw [hq] at hr2 <;> simp [isDateCell] at hr2
      case date d => exact ⟨d, rfl⟩

theorem C9_normalize_date_idempotent_witness :
    normalizeDate (normalizeDate
        (⟨["date"], [[("date", Cell.str "20240102")]]⟩ : DataFrame) "date") "date"
      = normalizeDate (⟨["date"], [[("date", Cell.str "20240102")]]⟩ : DataFrame) "date"
  ∧ ∃ d, getCell [("date", Cell.date ⟨2024, 1, 2⟩)] "date" = some (Cell.date d) :=
  ⟨C9_normalize_date_idempotent.1 ⟨["date"], [[("date", Cell.str "20240102")]]⟩ "date",
   C9_normalize_date_idempotent.2 ⟨["date"], [[("date", Cell.str "20240102")]]⟩ "date"
     (by decide) (by decide) [("date", Cell.date ⟨2024, 1, 2⟩)] (by decide)⟩

/-! ## File-system lemmas for the storage engine -/

theorem find_eq_of_filter_ne {α β : Type} [DecidableEq α] (l : List (α × β)) (q k : α)
    (h : ¬ k = q) :
    (l.filter (fun e => e.1 != q)).find? (fun e => e.1 == k) =
      l.find? (fun e => e.1 == k) := by
  induction l with
  | nil => rfl
  | cons a l ih =>
    by_cases ha : a.1 = q
    · have h2 : (a.1 == k) = false := by
        rw [ha]
        exact beq_eq_false_iff_ne.mpr (fun hh => h hh.symm)
      rw [List.filter_cons_of_neg (by simp [ha])]
      rw [List.find?_cons_of_neg _ (by simp [h2])]
      exact ih
    · rw [List.filter_cons_of_pos (by simp [ha])]
      by_cases hk : a.1 = k
      · rw [List.find?_cons_of_pos _ (by simp [hk]), List.find?_cons_of_pos _ (by simp [hk])]
      · rw [List.find?_cons_of_neg _ (by simp [hk]), List.find?_cons_of_neg _ (by simp [hk])]
        exact ih

theorem fsLookup_fsInsert (w : PPath × DataFrame) (fs : FS) (p : PPath) :
    fsLookup (fsInsert w fs) p = if w.1 = p then some w.2 else fsLookup fs p := by
  unfold fsLookup fsInsert
  by_cases h : w.1 = p
  · rw [if_pos h, List.find?_cons_of_pos _ (by simp [h])]
    rfl
  · rw [if_neg h, List.find?_cons_of_neg _ (by simp [h])]
    rw [find_eq_of_filter_ne _ _ _ (fun hh => h hh.symm)]

theorem fsLookup_applyWrites (fs : FS) (W : List (PPath × DataFrame)) (p : PPath) :
    fsLookup (applyWrites fs W) p =
      W.foldl (fun acc w => if w.1 = p then some w.2 else acc) (fsLookup fs p) := by
  induction W generalizing fs with
  | nil => rfl
  | cons w W ih =>
    show fsLookup (applyWrites (fsInsert w fs) W) p = _
    rw [ih (fsInsert w fs), fsLookup_fsInsert]
    rfl

theorem foldl_override_of_not_mem (W : List (PPath × DataFrame)) (p : PPath)
    (init : Option DataFrame) (h : p ∉ W.map (·.1)) :
    W.foldl (fun acc w => if w.1 = p then some w.2 else acc) init = init := by
  induction W generalizing init with
  | nil => rfl
  | cons w W ih =>
    simp only [List.map_cons, List.mem_cons, not_or] at h
    show W.foldl _ (if w.1 = p then some w.2 else init) = init
    rw [if_neg (fun hh => h.1 hh.symm)]
    exact ih init h.2

theorem foldl_override_indep (W : List (PPath × DataFrame)) (p : PPath)
    (h : p ∈ W.map (·.1)) (i1 i2 : Option DataFrame) :
    W.foldl (fun acc w => if w.1 = p then some w.2 else acc) i1 =
      W.foldl (fun acc w => if w.1 = p then some w.2 else acc) i2 := by
  induction W generalizing i1 i2 with
  | nil => simp at h
  | cons w W ih =>
    by_cases hm : p ∈ W.map (·.1)
    · exact ih hm _ _
    · have hw : w.1 = p := by
        simp only [List.map_cons, List.mem_cons] at h
        rcases h with h | h
        · exact h.symm
        · exact absurd h hm
      simp only [List.foldl_cons]
      rw [if_pos hw, if_pos hw]

theorem nodup_fsInsert (w : PPath × DataFrame) (fs : FS)
    (h : (fsPaths fs).Nodup) : (fsPaths (fsInsert w fs)).Nodup := by
  unfold fsPaths fsInsert
  rw [List.map_cons]
  refine List.nodup_cons.mpr ⟨?_, ?_⟩
  · intro hmem
    rcases List.mem_map.mp hmem with ⟨e, he, heq⟩
    have hne := List.of_mem_filter he
    simp only [bne_iff_ne, ne_eq] at hne
    exact hne heq
  · have hs : List.Sublist ((fs.filter (fun e => e.1 != w.1)).map (fun e => e.1))
        (fs.map (fun e => e.1)) :=
      List.Sublist.map _ (List.filter_sublist fs)
    exact hs.nodup h

theorem nodup_applyWrites (fs : FS) (W : List (PPath × DataFrame))
    (h : (fsPaths fs).Nodup) : (fsPaths (applyWrites fs W)).Nodup := by
  induction W generalizing fs with
  | nil => exact h
  | cons w W ih => exact ih _ (nodup_fsInsert w fs h)

/-! ## Claim C1: overwrite idempotence of the storage engine -/

/-- Claim C1: (a) the file system keeps at most one file per
(category, year, key) tuple — path-distinctness is preserved by every
`save_partitioned` call; (b) running `save_partitioned` twice with identical
input leaves every file's content unchanged; (c) the content stored at any
path written by a call is determined by that call alone, independent of the
prior file-system state — so a write for a tuple fully replaces the prior
file and re-writing a superset of rows leaves only the superset's rows. -/
theorem C1_storage_overwrite_idempotence (fs fs' : FS) (df df2 : DataFrame)
    (cat pc kc : String) :
    ((fsPaths fs).Nodup → (fsPaths (savePartitioned fs df cat pc kc).1).Nodup)
  ∧ (∀ p, fsLookup (savePartitioned (savePartitioned fs df cat pc kc).1
          df cat pc kc).1 p
        = fsLookup (savePartitioned fs df cat pc kc).1 p)
  ∧ (∀ p, p ∈ (partitionWrites df2 cat pc kc).map (·.1) →
      fsLookup (savePartitioned fs df2 cat pc kc).1 p
        = fsLookup (savePartitioned fs' df2 cat pc kc).1 p) := by
  refine ⟨?_, ?_, ?_⟩
  · intro h
    exact nodup_applyWrites fs (partitionWrites df cat pc kc) h
  · intro p
    by_cases hm : p ∈ (partitionWrites df cat pc kc).map (·.1)
    · unfold savePartitioned
      rw [fsLookup_applyWrites, fsLookup_applyWrites]
      exact foldl_override_indep _ p hm _ _
    · unfold savePartitioned
      rw [fsLookup_applyWrites]
      exact foldl_override_of_not_mem _ p _ hm
  · intro p hm
    unfold savePartitioned
    rw [fsLookup_applyWrites, fsLookup_applyWrites]
    exact foldl_override_indep _ p hm _ _

/-- A one-row frame used to witness the storage theorems. -/
def wDfSub : DataFrame :=
  ⟨["date", "code"],
   [[("date", Cell.str "20240101"), ("code", Cell.str "sh.600000")]]⟩

/-- A two-row superset of `wDfSub` for the same entity and year. -/
def wDfSuper : DataFrame :=
  ⟨["date", "code"],
   [[("date", Cell.str "20240101"), ("code", Cell.str "sh.600000")],
    [("date", Cell.str "20240202"), ("code", Cell.str "sh.600000")]]⟩

/-- The path both witness frames write to. -/
def wPath : PPath := ⟨"cat", 2024, "sh.600000.parquet"⟩

theorem C1_storage_overwrite_idempotence_witness :
    (fsPaths (savePartitioned [] wDfSub "cat" "date" "code").1).Nodup
  ∧ (fsLookup (savePartitioned (savePartitioned [] wDfSub "cat" "date" "code").1
        wDfSub "cat" "date" "code").1 wPath
      = fsLookup (savePartitioned [] wDfSub "cat" "date" "code").1 wPath)
  ∧ (fsLookup (savePartitioned (savePartitioned [] wDfSub "cat" "date" "code").1
        wDfSuper "cat" "date" "code").1 wPath
      = fsLookup (savePartitioned [] wDfSuper "cat" "date" "code").1 wPath) :=
  ⟨(C1_storage_overwrite_idempotence [] [] wDfSub wDfSub "cat" "date" "code").1
     (by decide),
   (C1_storage_overwrite_idempotence [] [] wDfSub wDfSub "cat" "date" "code").2.1
     wPath,
   (C1_storage_overwrite_idempotence (savePartitioned [] wDfSub "cat" "date" "code").1
     [] wDfSub wDfSuper "cat" "date" "code").2.2 wPath (by decide)⟩

/-! ## Lemmas for the partition-layout claims -/

theorem mem_insertSorted (a n : ℕ) (l : List ℕ) :
    a ∈ insertSorted n l ↔ a = n ∨ a ∈ l := by
  induction l with
  | nil => simp [insertSorted]
  | cons m ms ih =>
    unfold insertSorted
    by_cases h : n ≤ m
    · rw [if_pos h]
      simp [List.mem_cons]
    · rw [if_neg h]
      simp only [List.mem_cons, ih]
      tauto

theorem mem_sortNats (a : ℕ) (l : List ℕ) : a ∈ sortNats l ↔ a ∈ l := by
  induction l with
  | nil => simp [sortNats]
  | cons m ms ih =>
    show a ∈ insertSorted m (sortNats ms) ↔ _
    rw [mem_insertSorted, ih]
    simp [List.mem_cons]

theorem mem_dedupNats (a : ℕ) (l : List ℕ) : a ∈ dedupNats l ↔ a ∈ l := by
  induction l with
  | nil => simp [dedupNats]
  | cons m ms ih =>
    unfold dedupNats
    simp only [List.mem_cons, List.mem_filter]
    constructor
    · rintro (rfl | ⟨hm, _⟩)
      · exact Or.inl rfl
      · exact Or.inr (ih.mp hm)
    · rintro (rfl | hm)
      · exact Or.inl rfl
      · by_cases hma : a = m
        · exact Or.inl hma
        · exact Or.inr ⟨ih.mpr hm, by simp [hma]⟩

theorem any_key_eq_false (r : Row) (c : String) (h : c ∉ r.map Prod.fst) :
    r.any (fun p => p.1 == c) = false := by
  rw [Bool.eq_false_iff]
  intro hany
  rcases List.any_eq_true.mp hany with ⟨x, hx, hxc⟩
  exact h (List.mem_map.mpr ⟨x, hx, by simpa using hxc⟩)

theorem setEntry_of_not_key (r : Row) (c : String) (v : Cell)
    (h : c ∉ r.map Prod.fst) : setEntry r c v = r ++ [(c, v)] := by
  unfold setEntry
  rw [if_neg (ne_true_of_eq_false (any_key_eq_false r c h))]

theorem getCell_append_left (r r2 : Row) (c : String) (h : c ∈ r.map Prod.fst) :
    getCell (r ++ r2) c = getCell r c := by
  induction r with
  | nil => simp at h
  | cons p rs ih =>
    by_cases hp : p.1 = c
    · unfold getCell
      rw [List.cons_append, List.find?_cons_of_pos _ (by simp [hp]),
        List.find?_cons_of_pos _ (by simp [hp])]
    · have h' : c ∈ rs.map Prod.fst := by
        simp only [List.map_cons, List.mem_cons] at h
        rcases h with h | h
        · exact absurd h.symm hp
        · exact h
      unfold getCell
      rw [List.cons_append, List.find?_cons_of_neg _ (by simp [hp]),
        List.find?_cons_of_neg _ (by simp [hp])]
      exact ih h'

/-! ## Claim C7: partition derivation and file layout -/

/-- Claim C7: for a well-formed nonempty frame with the partition and key
columns present (and no pre-existing `year` column), `save_partitioned`
groups rows by the calendar year derived from the partition column —
rows whose partition value cannot be derived are dropped — and emits, per
year, one write to `<category>/year=<YYYY>/<sanitized key>.parquet` where the
key is read from the group's first row and path separators are replaced;
every written row stems from an input row of that year, and every input row
with a derivable year lands in the write for that year. -/
theorem C7_partition_layout (df : DataFrame) (cat pc kc : String)
    (hwf : df.WF) (hyear : "year" ∉ df.cols)
    (hne : df.isEmpty = false) (hpc : pc ∈ df.cols) (hkc : kc ∈ df.cols) :
    (∀ w ∈ partitionWrites df cat pc kc,
        w.1.category = cat
      ∧ w.2.rows ≠ []
      ∧ (∃ r ∈ df.rows, rowYear r pc = some w.1.year
           ∧ w.2.rows.headD [] = r ++ [("year", Cell.int (Int.ofNat w.1.year))]
           ∧ w.1.file = sanitize (cellToString ((getCell r kc).getD Cell.na)) ++ ".parquet")
      ∧ (∀ r2 ∈ w.2.rows, ∃ r ∈ df.rows, rowYear r pc = some w.1.year
           ∧ r2 = r ++ [("year", Cell.int (Int.ofNat w.1.year))]))
  ∧ (∀ r ∈ df.rows, ∀ y, rowYear r pc = some y →
       ∃ w ∈ partitionWrites df cat pc kc, w.1.year = y
         ∧ (r ++ [("year", Cell.int (Int.ofNat y))]) ∈ w.2.rows) := by
  have h2 : df.cols.contains pc = true := by simpa using hpc
  have h3 : df.cols.contains kc = true := by simpa using hkc
  have hg : ¬ ((df.isEmpty || !(df.cols.contains pc) || !(df.cols.contains kc)) = true) := by
    rw [hne, h2, h3]
    simp
  constructor
  · intro w hw
    rw [partitionWrites, if_neg hg] at hw
    rcases List.mem_map.mp hw with ⟨y, hy, rfl⟩
    have hy' : y ∈ (yearRows df pc).map (·.2) :=
      (mem_dedupNats _ _).mp ((mem_sortNats _ _).mp hy)
    have hfne : (yearRows df pc).filter (fun wr => wr.2 == y) ≠ [] := by
      rcases List.mem_map.mp hy' with ⟨e, he, hey⟩
      intro hnil
      have hmem : e ∈ (yearRows df pc).filter (fun wr => wr.2 == y) :=
        List.mem_filter.mpr ⟨he, by simp [hey]⟩
      rw [hnil] at hmem
      exact List.not_mem_nil e hmem
    cases hf : (yearRows df pc).filter (fun wr => wr.2 == y) with
    | nil => exact absurd hf hfne
    | cons e es =>
      have hef : e ∈ (yearRows df pc).filter (fun wr => wr.2 == y) := by
        rw [hf]
        exact List.mem_cons_self e es
      have he' := List.mem_filter.mp hef
      rcases List.mem_filterMap.mp he'.1 with ⟨r, hr, hgr⟩
      cases hry : rowYear r pc with
      | none => rw [hry] at hgr; exact absurd hgr (by simp)
      | some y0 =>
        rw [hry] at hgr
        have hgr' : (setEntry r "year" (Cell.int (Int.ofNat y0)), y0) = e :=
          Option.some.inj (by simpa using hgr)
        have hy0 : y0 = y := by
          have hb := he'.2
          rw [← hgr'] at hb
          simpa using hb
        subst hy0
        have hkeys : "year" ∉ r.map Prod.fst := by rw [hwf r hr]; exact hyear
        have hse : setEntry r "year" (Cell.int (Int.ofNat y0)) =
            r ++ [("year", Cell.int (Int.ofNat y0))] :=
          setEntry_of_not_key _ _ _ hkeys
        have hmemk : kc ∈ r.map Prod.fst := by rw [hwf r hr]; exact hkc
        refine ⟨rfl, ?_, ⟨r, hr, hry, ?_, ?_⟩, ?_⟩
        · show ((e :: es).map (·.1)) ≠ []
          simp
        · show e.1 = r ++ [("year", Cell.int (Int.ofNat y0))]
          rw [← hgr']
          exact hse
        · show sanitize (cellToString ((getCell e.1 kc).getD Cell.na)) ++ ".parquet" = _
          rw [← hgr']
          show sanitize (cellToString ((getCell
            (setEntry r "year" (Cell.int (Int.ofNat y0))) kc).getD Cell.na)) ++ ".parquet" = _
          rw [hse, getCell_append_left r _ kc hmemk]
        · intro r2 hr2
          rcases List.mem_map.mp hr2 with ⟨e2, he2f, rfl⟩
          have he2fl : e2 ∈ (yearRows df pc).filter (fun wr => wr.2 == y0) := by
            rw [hf]
            exact he2f
          have he2' := List.mem_filter.mp he2fl
          rcases List.mem_filterMap.mp he2'.1 with ⟨r3, hr3, hgr3⟩
          cases hry3 : rowYear r3 pc with
          | none => rw [hry3] at hgr3; exact absurd hgr3 (by simp)
          | some y3 =>
            rw [hry3] at hgr3
            have hgr3' : (setEntry r3 "year" (Cell.int (Int.ofNat y3)), y3) = e2 :=
              Option.some.inj (by simpa using hgr3)
            have hy3 : y3 = y0 := by
              have hb := he2'.2
              rw [← hgr3'] at hb
              simpa using hb
            subst hy3
            have hkeys3 : "year" ∉ r3.map Prod.fst := by rw [hwf r3 hr3]; exact hyear
            refine ⟨r3, hr3, hry3, ?_⟩
            rw [← hgr3']
            exact setEntry_of_not_key _ _ _ hkeys3
  · intro r hr y hy
    have hkeys : "year" ∉ r.map Prod.fst := by rw [hwf r hr]; exact hyear
    have hse : setEntry r "year" (Cell.int (Int.ofNat y)) =
        r ++ [("year", Cell.int (Int.ofNat y))] :=
      setEntry_of_not_key _ _ _ hkeys
    have hew : (setEntry r "year" (Cell.int (Int.ofNat y)), y) ∈ yearRows df pc :=
      List.mem_filterMap.mpr ⟨r, hr, by rw [rowYear] at hy ⊢; rw [hy]; rfl⟩
    have hymem : y ∈ (yearRows df pc).map (·.2) := List.mem_map.mpr ⟨_, hew, rfl⟩
    have hys : y ∈ sortNats (dedupNats ((yearRows df pc).map (·.2))) :=
      (mem_sortNats _ _).mpr ((mem_dedupNats _ _).mpr hymem)
    rw [partitionWrites, if_neg hg]
    refine ⟨_, List.mem_map.mpr ⟨y, hys, rfl⟩, rfl, ?_⟩
    refine List.mem_map.mpr ⟨(setEntry r "year" (Cell.int (Int.ofNat y)), y), ?_, hse⟩
    exact List.mem_filter.mpr ⟨hew, by simp⟩

/-! ## Claim C10: the serialized `year` column and the frame effect -/

/-- Claim C10: every file written by `save_partitioned` carries all input
columns plus an extra integer `year` column, equal in every row to the
file's partition year; the caller's input frame is returned unmodified (the
code copies the frame before adding the column, parquet_manager.py:61). -/
theorem C10_year_column_frame_effect (fs : FS) (df : DataFrame)
    (cat pc kc : String) (hwf : df.WF) (hyear : "year" ∉ df.cols) :
    (∀ w ∈ partitionWrites df cat pc kc,
        w.2.cols = df.cols ++ ["year"]
      ∧ ∀ r2 ∈ w.2.rows, getCell r2 "year" = some (Cell.int (Int.ofNat w.1.year)))
  ∧ (savePartitioned fs df cat pc kc).2 = df := by
  constructor
  · intro w hw
    unfold partitionWrites at hw
    by_cases hg : (df.isEmpty || !(df.cols.contains pc) || !(df.cols.contains kc)) = true
    · rw [if_pos hg] at hw
      exact absurd hw (List.not_mem_nil w)
    · rw [if_neg hg] at hw
      rcases List.mem_map.mp hw with ⟨y, hy, rfl⟩
      constructor
      · show yearCols df = df.cols ++ ["year"]
        unfold yearCols
        rw [if_neg hyear]
      · intro r2 hr2
        rcases List.mem_map.mp hr2 with ⟨e2, he2f, rfl⟩
        have he2' := List.mem_filter.mp he2f
        rcases List.mem_filterMap.mp he2'.1 with ⟨r3, hr3, hgr3⟩
        cases hry3 : rowYear r3 pc with
        | none => rw [hry3] at hgr3; exact absurd hgr3 (by simp)
        | some y3 =>
          rw [hry3] at hgr3
          have hgr3' : (setEntry r3 "year" (Cell.int (Int.ofNat y3)), y3) = e2 :=
            Option.some.inj (by simpa using hgr3)
          have hy3 : y3 = y := by
            have hb := he2'.2
            rw [← hgr3'] at hb
            simpa using hb
          subst hy3
          have hkeys3 : "year" ∉ r3.map Prod.fst := by rw [hwf r3 hr3]; exact hyear
          rw [← hgr3']
          show getCell (setEntry r3 "year" (Cell.int (Int.ofNat y3))) "year" = _
          rw [setEntry_of_not_key _ _ _ hkeys3]
          exact getCell_append_single r3 "year" _ (any_key_eq_false r3 "year" hkeys3)
  · rfl

theorem C7_partition_layout_witness :
    (∀ w ∈ partitionWrites wDfSuper "cat" "date" "code",
        w.1.category = "cat"
      ∧ w.2.rows ≠ []
      ∧ (∃ r ∈ wDfSuper.rows, rowYear r "date" = some w.1.year
           ∧ w.2.rows.headD [] = r ++ [("year", Cell.int (Int.ofNat w.1.year))]
           ∧ w.1.file =
               sanitize (cellToString ((getCell r "code").getD Cell.na)) ++ ".parquet")
      ∧ (∀ r2 ∈ w.2.rows, ∃ r ∈ wDfSuper.rows, rowYear r "date" = some w.1.year
           ∧ r2 = r ++ [("year", Cell.int (Int.ofNat w.1.year))]))
  ∧ (∀ r ∈ wDfSuper.rows, ∀ y, rowYear r "date" = some y →
       ∃ w ∈ partitionWrites wDfSuper "cat" "date" "code", w.1.year = y
         ∧ (r ++ [("year", Cell.int (Int.ofNat y))]) ∈ w.2.rows) :=
  C7_partition_layout wDfSuper "cat" "date" "code" (by decide) (by decide) (by decide)
    (by decide) (by decide)

theorem C10_year_column_frame_effect_witness :
    (∀ w ∈ partitionWrites wDfSub "cat" "date" "code",
        w.2.cols = wDfSub.cols ++ ["year"]
      ∧ ∀ r2 ∈ w.2.rows, getCell r2 "year" = some (Cell.int (Int.ofNat w.1.year)))
  ∧ (savePartitioned [] wDfSub "cat" "date" "code").2 = wDfSub :=
  C10_year_column_frame_effect [] wDfSub "cat" "date" "code" (by decide) (by decide)

/-! ## Claim C3: the fail-soft guard checks `选项`, not the metric column -/

/-- Claim C3 counterexample: a wide table that has the grouping column
`选项` but lacks the metric-name column `指标` makes
`clean_financial_report` raise a `KeyError` (at `df['指标']`,
cleaner.py line 81) instead of returning an empty table. -/
theorem C3_counterexample :
    cleanFinancialReport
        ⟨["选项", "20250930"],
         [[("选项", Cell.str "常用指标"), ("20250930", Cell.str "1000")]]⟩
      = Except.error "KeyError: 指标"
  ∧ "指标" ∉ (⟨["选项", "20250930"],
       [[("选项", Cell.str "常用指标"), ("20250930", Cell.str "1000")]]⟩ : DataFrame).cols := by
  decide

/-- Claim C3 (amended): for every wide table that is empty or lacks the
grouping column `选项`, `clean_financial_report` returns an empty table
without raising; the fail-soft guard tests `选项`, and an input that has
`选项` but lacks `指标` raises instead. -/
theorem C3_fail_soft_guard (df : DataFrame)
    (h : df.isEmpty = true ∨ "选项" ∉ df.cols) :
    ∃ out, cleanFinancialReport df = Except.ok out ∧ out.isEmpty = true := by
  rcases h with h | h
  · exact ⟨df, by rw [cleanFinancialReport, if_pos h], h⟩
  · by_cases he : df.isEmpty = true
    · exact ⟨df, by rw [cleanFinancialReport, if_pos he], he⟩
    · have h1 : "选项" ∉ (if "code" ∈ df.cols then dropCol df "code" else df).cols := by
        by_cases hc : "code" ∈ df.cols
        · rw [if_pos hc]
          intro hmem
          exact h (List.mem_of_mem_filter hmem)
        · rw [if_neg hc]
          exact h
      refine ⟨⟨[], []⟩, ?_, rfl⟩
      rw [cleanFinancialReport, if_neg he, cfrAfterCode, if_neg h1]

theorem C3_fail_soft_guard_witness :
    (∃ out, cleanFinancialReport (⟨["选项", "指标"], []⟩ : DataFrame) = Except.ok out
      ∧ out.isEmpty = true)
  ∧ (∃ out, cleanFinancialReport
        (⟨["指标", "20250930"], [[("指标", Cell.str "净利润"),
          ("20250930", Cell.str "1")]]⟩ : DataFrame) = Except.ok out
      ∧ out.isEmpty = true) :=
  ⟨C3_fail_soft_guard ⟨["选项", "指标"], []⟩ (Or.inl (by decide)),
   C3_fail_soft_guard ⟨["指标", "20250930"],
     [[("指标", Cell.str "净利润"), ("20250930", Cell.str "1")]]⟩ (Or.inr (by decide))⟩

/-! ## Claim C4: transpose shape -/

theorem dedupByKey_find (l : List (Cell × Row)) (k : Cell) :
    (dedupByKey l).find? (fun e => e.1 == k) = l.find? (fun e => e.1 == k) := by
  induction l with
  | nil => rfl
  | cons x xs ih =>
    by_cases hk : x.1 = k
    · unfold dedupByKey
      rw [List.find?_cons_of_pos _ (by simp [hk]), List.find?_cons_of_pos _ (by simp [hk])]
    · unfold dedupByKey
      rw [List.find?_cons_of_neg _ (by simp [hk]), List.find?_cons_of_neg _ (by simp [hk])]
      rw [find_eq_of_filter_ne _ _ _ (fun hh => hk hh.symm)]
      exact ih

theorem length_filterMap_map {α β γ : Type} (l : List α) (g : α → Option β)
    (h : α → β → γ) :
    (l.filterMap (fun x => (g x).map (h x))).length =
      (l.filter (fun x => (g x).isSome)).length := by
  induction l with
  | nil => rfl
  | cons x xs ih =>
    cases hg : g x <;>
      simp [List.filterMap_cons, List.filter_cons, hg, ih]

/-- Claim C4: for a nonempty well-formed wide table carrying the entity
column `code` (with truthy first value), the grouping column `选项` and the
metric column `指标`, whose metric names do not collide with the key
columns, `clean_financial_report` succeeds and yields a long table whose
columns are exactly the period column, the N deduplicated metric names
(first occurrence kept, witnessed by the `find?` conjunct) and the entity
column — N + 2 columns in all — with one row per parseable period label,
hence at most M rows for M remaining (period) columns; unparseable labels
are dropped, not null-filled. -/
theorem C4_transpose_shape (df : DataFrame)
    (hne : df.isEmpty = false)
    (hcode : "code" ∈ df.cols)
    (hopt : "选项" ∈ df.cols)
    (hmet : "指标" ∈ df.cols)
    (htruthy : ((getCell (df.rows.headD []) "code").getD Cell.na).truthy = true)
    (hfc : "code" ∉ (uniqueMetricRows (dropCol df "code").rows).map
      (fun kr => cellToString kr.1))
    (_hfr : "report_date" ∉ (uniqueMetricRows (dropCol df "code").rows).map
      (fun kr => cellToString kr.1)) :
    ∃ out, cleanFinancialReport df = Except.ok out
      ∧ out.cols = "report_date" ::
          ((uniqueMetricRows (dropCol df "code").rows).map (fun kr => cellToString kr.1)
            ++ ["code"])
      ∧ out.cols.length = (uniqueMetricRows (dropCol df "code").rows).length + 2
      ∧ out.rows.length = ((periodLabels (dropCol df "code")).filter
          (fun L => (parseDateString L).isSome)).length
      ∧ out.rows.length ≤ (periodLabels (dropCol df "code")).length
      ∧ (∀ k, (uniqueMetricRows (dropCol df "code").rows).find? (fun e => e.1 == k)
            = ((dropCol df "code").rows.map
                (fun r => ((getCell r "指标").getD Cell.na, r))).find?
                (fun e => e.1 == k)) := by
  have hopt1 : "选项" ∈ (dropCol df "code").cols :=
    List.mem_filter.mpr ⟨hopt, by decide⟩
  have hmet1 : "指标" ∈ (dropCol df "code").cols :=
    List.mem_filter.mpr ⟨hmet, by decide⟩
  have hstep : cleanFinancialReport df =
      Except.ok (cfrTranspose (extractStockCode df) (dropCol df "code")) := by
    rw [cleanFinancialReport, if_neg (ne_true_of_eq_false hne), if_pos hcode,
      cfrAfterCode, if_pos hopt1, if_pos hmet1]
  have hsc : extractStockCode df =
      some ((getCell (df.rows.headD []) "code").getD Cell.na) := by
    rw [extractStockCode, if_pos hcode]
  have hct : cfrTranspose (extractStockCode df) (dropCol df "code") =
      mapNonKeyNumeric (setColConst (transDF (dropCol df "code")) "code"
        ((getCell (df.rows.headD []) "code").getD Cell.na)) := by
    simp only [cfrTranspose, hsc]
    rw [if_pos htruthy]
  rw [hct] at hstep
  have hnotin : "code" ∉ (transDF (dropCol df "code")).cols := by
    intro hmem
    rcases List.mem_cons.mp hmem with h | h
    · exact absurd h (by decide)
    · exact hfc h
  have hcols : (setColConst (transDF (dropCol df "code")) "code"
      ((getCell (df.rows.headD []) "code").getD Cell.na)).cols =
      (transDF (dropCol df "code")).cols ++ ["code"] := by
    simp only [setColConst]
    rw [if_neg hnotin]
  refine ⟨_, hstep, ?_, ?_, ?_, ?_, ?_⟩
  · show (setColConst (transDF (dropCol df "code")) "code"
      ((getCell (df.rows.headD []) "code").getD Cell.na)).cols = _
    rw [hcols]
    show ("report_date" :: (uniqueMetricRows (dropCol df "code").rows).map
      (fun kr => cellToString kr.1)) ++ ["code"] = _
    rw [List.cons_append]
  · show (setColConst (transDF (dropCol df "code")) "code"
      ((getCell (df.rows.headD []) "code").getD Cell.na)).cols.length = _
    rw [hcols]
    simp [transDF]
  · show ((setColConst (transDF (dropCol df "code")) "code"
      ((getCell (df.rows.headD []) "code").getD Cell.na)).rows.map _).length = _
    rw [List.length_map]
    show ((transDF (dropCol df "code")).rows.map _).length = _
    rw [List.length_map]
    show (transRows (dropCol df "code")).length = _
    unfold transRows
    exact length_filterMap_map _ _ _
  · show ((setColConst (transDF (dropCol df "code")) "code"
      ((getCell (df.rows.headD []) "code").getD Cell.na)).rows.map _).length ≤ _
    rw [List.length_map]
    show ((transDF (dropCol df "code")).rows.map _).length ≤ _
    rw [List.length_map]
    show (transRows (dropCol df "code")).length ≤ _
    unfold transRows
    rw [length_filterMap_map _ _ _]
    exact List.length_filter_le _ _
  · intro k
    exact dedupByKey_find _ k

/-- A wide report table with a duplicate metric name, a stray non-period
column, and the injected entity column, used to witness claim C4. -/
def wDfWide : DataFrame :=
  ⟨["选项", "指标", "20250630", "20250930", "extra", "code"],
   [[("选项", Cell.str "常用指标"), ("指标", Cell.str "净利润"),
     ("20250630", Cell.str "1000"), ("20250930", Cell.str "2000"),
     ("extra", Cell.str "x"), ("code", Cell.str "sh.600000")],
    [("选项", Cell.str "常用指标"), ("指标", Cell.str "净利润"),
     ("20250630", Cell.str "1111"), ("20250930", Cell.str "2222"),
     ("extra", Cell.str "y"), ("code", Cell.str "sh.600000")]]⟩

theorem C4_transpose_shape_witness :
    ∃ out, cleanFinancialReport wDfWide = Except.ok out
      ∧ out.cols = "report_date" ::
          ((uniqueMetricRows (dropCol wDfWide "code").rows).map (fun kr => cellToString kr.1)
            ++ ["code"])
      ∧ out.cols.length = (uniqueMetricRows (dropCol wDfWide "code").rows).length + 2
      ∧ out.rows.length = ((periodLabels (dropCol wDfWide "code")).filter
          (fun L => (parseDateString L).isSome)).length
      ∧ out.rows.length ≤ (periodLabels (dropCol wDfWide "code")).length
      ∧ (∀ k, (uniqueMetricRows (dropCol wDfWide "code").rows).find? (fun e => e.1 == k)
            = ((dropCol wDfWide "code").rows.map
                (fun r => ((getCell r "指标").getD Cell.na, r))).find?
                (fun e => e.1 == k)) :=
  C4_transpose_shape wDfWide (by decide) (by decide) (by decide) (by decide)
    (by decide) (by decide) (by decide)

/-! ## Claim C8: reconciler semantics -/

theorem length_mapME {α β : Type} (f : α → Except String β) (l : List α)
    (l' : List β) (h : mapME f l = .ok l') : l'.length = l.length := by
  induction l generalizing l' with
  | nil =>
    rw [← Except.ok.inj h]
    rfl
  | cons x xs ih =>
    unfold mapME at h
    cases hf : f x with
    | error e => rw [hf] at h; exact Except.noConfusion h
    | ok b =>
      rw [hf] at h
      cases hm : mapME f xs with
      | error e => rw [hm] at h; exact Except.noConfusion h
      | ok bs =>
        rw [hm] at h
        rw [← Except.ok.inj h]
        simp [ih bs hm]

theorem coerceKeys_cols (df df' : DataFrame) (h : coerceKeys df = .ok df') :
    df'.cols = df.cols := by
  unfold coerceKeys at h
  split at h
  · exact Except.noConfusion h
  · rw [← Except.ok.inj h]

theorem coerceKeys_rows_length (df df' : DataFrame)
    (h : coerceKeys df = .ok df') : df'.rows.length = df.rows.length := by
  unfold coerceKeys at h
  split at h
  · exact Except.noConfusion h
  · rename_i rows1 heq
    have h1 : rows1.length = df.rows.length := by
      split at heq
      · exact length_mapME _ _ _ heq
      · rw [← Except.ok.inj heq]
    rw [← Except.ok.inj h]
    show (if "code" ∈ df.cols then rows1.map
      (fun r => setEntry r "code"
        (Cell.str (cellToString ((getCell r "code").getD Cell.na)))) else rows1).length = _
    split
    · rw [List.length_map]
      exact h1
    · exact h1

theorem length_flatMap_ge {α β : Type} (l : List α) (f : α → List β)
    (h : ∀ x ∈ l, 1 ≤ (f x).length) :
    l.length ≤ (l.flatMap f).length := by
  induction l with
  | nil => simp
  | cons x xs ih =>
    rw [List.flatMap_cons, List.length_append, List.length_cons]
    have h1 := h x (List.mem_cons_self x xs)
    have h2 := ih (fun y hy => h y (List.mem_cons_of_mem _ hy))
    omega

theorem leftJoin_rows_ge (ak bs : DataFrame) :
    ak.rows.length ≤ (leftJoin ak bs).rows.length := by
  refine length_flatMap_ge ak.rows (joinRowsFor ak bs) ?_
  intro r _
  unfold joinRowsFor
  split
  · simp
  · rename_i hne
    rw [List.length_map]
    have : (bs.rows.filter (fun b => rowKey b == rowKey r)) ≠ [] := by
      intro hnil
      exact hne (by rw [hnil]; rfl)
    have := List.length_pos.mpr this
    omega

/-- Claim C8: `merge_financial_data` returns the secondary frame when the
primary is empty and the primary frame when the secondary is empty,
column-for-column; whenever it succeeds on two nonempty frames the primary's
columns appear unrenamed as the leading columns of the result; and when both
key columns are present in both (coerced) frames it performs the left outer
join, whose columns are the primary's followed by the secondary's non-key
columns with `_bs` appended exactly to those colliding with a primary
column, and which keeps at least one row per primary row. -/
theorem C8_merge_semantics :
    (∀ ak bs : DataFrame, ak.isEmpty = true → mergeFinancialData ak bs = .ok bs)
  ∧ (∀ ak bs : DataFrame, ak.isEmpty = false → bs.isEmpty = true →
       mergeFinancialData ak bs = .ok ak)
  ∧ (∀ ak bs out : DataFrame, ak.isEmpty = false → bs.isEmpty = false →
       mergeFinancialData ak bs = .ok out →
       out.cols.take ak.cols.length = ak.cols)
  ∧ (∀ ak bs ak' bs' : DataFrame, ak.isEmpty = false → bs.isEmpty = false →
       coerceKeys ak = .ok ak' → coerceKeys bs = .ok bs' →
       "code" ∈ ak.cols → "report_date" ∈ ak.cols →
       "code" ∈ bs.cols → "report_date" ∈ bs.cols →
       mergeFinancialData ak bs = .ok (leftJoin ak' bs')
     ∧ (leftJoin ak' bs').cols = ak.cols ++
         (bs.cols.filter (fun c => !(c == "code" || c == "report_date"))).map
           (fun c => if c ∈ ak.cols then c ++ "_bs" else c)
     ∧ ak.rows.length ≤ (leftJoin ak' bs').rows.length) := by
  refine ⟨?_, ?_, ?_, ?_⟩
  · intro ak bs h
    rw [mergeFinancialData, if_pos h]
  · intro ak bs h1 h2
    rw [mergeFinancialData, if_neg (ne_true_of_eq_false h1), if_pos h2]
  · intro ak bs out h1 h2 hm
    rw [mergeFinancialData, if_neg (ne_true_of_eq_false h1),
      if_neg (ne_true_of_eq_false h2)] at hm
    split at hm
    · exact Except.noConfusion hm
    · rename_i ak' hA
      split at hm
      · exact Except.noConfusion hm
      · rename_i bs' hB
        have hca := coerceKeys_cols ak ak' hA
        split at hm
        · rw [← Except.ok.inj hm]
          show (ak'.cols ++ renCols ak' bs').take ak.cols.length = ak.cols
          rw [hca, List.take_left]
        · rw [← Except.ok.inj hm, hca, List.take_length]
  · intro ak bs ak' bs' h1 h2 hA hB hc1 hc2 hc3 hc4
    have hca := coerceKeys_cols ak ak' hA
    have hcb := coerceKeys_cols bs bs' hB
    refine ⟨?_, ?_, ?_⟩
    · rw [mergeFinancialData, if_neg (ne_true_of_eq_false h1),
        if_neg (ne_true_of_eq_false h2)]
      simp only [hA, hB]
      rw [if_pos ⟨by rw [hca]; exact hc1, by rw [hca]; exact hc2,
        by rw [hcb]; exact hc3, by rw [hcb]; exact hc4⟩]
    · show ak'.cols ++ renCols ak' bs' = _
      unfold renCols
      rw [hca, hcb]
    · have hj := leftJoin_rows_ge ak' bs'
      rw [coerceKeys_rows_length ak ak' hA] at hj
      exact hj

/-- The primary frame used to witness claim C8. -/
def wAk : DataFrame :=
  ⟨["code", "report_date", "v"],
   [[("code", Cell.str "sh.1"), ("report_date", Cell.date ⟨2024, 12, 31⟩),
     ("v", Cell.num 1)]]⟩

/-- The secondary frame used to witness claim C8 (its `v` column collides). -/
def wBs : DataFrame :=
  ⟨["code", "report_date", "v", "extra"],
   [[("code", Cell.str "sh.1"), ("report_date", Cell.date ⟨2024, 12, 31⟩),
     ("v", Cell.num 2), ("extra", Cell.num 3)]]⟩

theorem C8_merge_semantics_witness :
    mergeFinancialData ⟨[], []⟩ wBs = .ok wBs
  ∧ mergeFinancialData wAk ⟨[], []⟩ = .ok wAk
  ∧ (leftJoin wAk wBs).cols.take wAk.cols.length = wAk.cols
  ∧ mergeFinancialData wAk wBs = .ok (leftJoin wAk wBs)
  ∧ (leftJoin wAk wBs).cols = wAk.cols ++
      (wBs.cols.filter (fun c => !(c == "code" || c == "report_date"))).map
        (fun c => if c ∈ wAk.cols then c ++ "_bs" else c)
  ∧ wAk.rows.length ≤ (leftJoin wAk wBs).rows.length :=
  ⟨C8_merge_semantics.1 ⟨[], []⟩ wBs (by decide),
   C8_merge_semantics.2.1 wAk ⟨[], []⟩ (by decide) (by decide),
   C8_merge_semantics.2.2.1 wAk wBs (leftJoin wAk wBs) (by decide) (by decide)
     (by decide),
   (C8_merge_semantics.2.2.2 wAk wBs wAk wBs (by decide) (by decide) (by decide)
     (by decide) (by decide) (by decide) (by decide) (by decide)).1,
   (C8_merge_semantics.2.2.2 wAk wBs wAk wBs (by decide) (by decide) (by decide)
     (by decide) (by decide) (by decide) (by decide) (by decide)).2.1,
   (C8_merge_semantics.2.2.2 wAk wBs wAk wBs (by decide) (by decide) (by decide)
     (by decide) (by decide) (by decide) (by decide) (by decide)).2.2⟩
